import Mathlib

/-!
Shallow embedding of the relational version-space matcher of AL_Core
(src/learners/WhereLearner.py): the classes `VersionSpaceILP`,
`Enumerizer` and `VersionSpace`, together with theorems settling the
frozen claims about them.

Machine integers: the source stores attribute codes in `torch.uint8`
tensors, but every code is a small dense enumeration index (codes are
assigned consecutively from 0 and states are tiny), so no arithmetic
ever wraps; we model codes as `Nat`.  Tensors of shape `(k, clen)` are
modelled as `List (List Nat)` (a list of rows); torch raises a runtime
error when two operands have incompatible trailing dimensions, which we
model with explicit width checks returning `Except`.
-/

namespace ALCore

/-- Python exception conditions reachable in the modelled code paths.
`schemaMismatch` stands for the two `assert`s that guard vector arity
(`VersionSpace.ifit` line 823 and `Enumerizer.transform` lines 1317-1319),
which the spec calls the SchemaMismatch condition; `assertionError` is any
other failing `assert`; `keyError` a Python `KeyError`; `typeError` an
unhashable-key `TypeError`; `noneTypeError` an operation on `None`;
`broadcastError` and `viewError` and `valueError` are torch/runtime shape
errors. -/
inductive PyErr where
  | keyError
  | assertionError
  | schemaMismatch
  | typeError
  | noneTypeError
  | broadcastError
  | viewError
  | valueError
deriving DecidableEq, Repr

/-! ## VersionSpaceILP (WhereLearner.py lines 1144-1223)

`spec_concepts` / `gen_concepts` are `None` or a tensor of row vectors;
`unused_concepts` holds the deferred examples received before the first
positive one. -/

structure VersionSpaceILP where
  spec_concepts : Option (List (List Nat))
  gen_concepts : List (List Nat)
  unused_concepts : List (List Nat × Int)
deriving DecidableEq, Repr

/-- The fresh state built by `VersionSpaceILP.__init__`. -/
def ilpInit : VersionSpaceILP := ⟨none, [], []⟩

/-- `((h == ZERO) | (h == x)).all(dim=-1)`: hypothesis row `h` is
consistent with vector `x` (wildcard 0 matches anything). -/
def consistentB (h x : List Nat) : Bool :=
  (h.zip x).all (fun p => p.1 == 0 || p.1 == p.2)

/-- Propositional form of `consistentB`. -/
def ConsistentP (h x : List Nat) : Prop :=
  ∀ p ∈ h.zip x, p.1 = 0 ∨ p.1 = p.2

theorem consistentB_iff (h x : List Nat) :
    consistentB h x = true ↔ ConsistentP h x := by
  simp [consistentB, ConsistentP]

/-- All rows have width `n` (torch tensors are rectangular; elementwise
ops against a `(1, n)` vector need that shared width). -/
def rowsWidthOk (rows : List (List Nat)) (n : Nat) : Bool :=
  rows.all (fun r => r.length == n)

/-- `torch.where(x != spec, ZERO, spec)` on one row: each position where
the stored row differs from the new vector becomes the wildcard 0. -/
def specGeneralize (x s : List Nat) : List Nat :=
  List.zipWith (fun xi si => if xi ≠ si then 0 else si) x s

/-- `torch.where(tsc == ZERO, sc, tsc)` on one row pair: positions where
the general hypothesis `g` is wildcard take the candidate's value. -/
def mergeWhere (g c : List Nat) : List Nat :=
  List.zipWith (fun gi ci => if gi = 0 then ci else gi) g c

/-- Row with value `v` at position `i` and wildcard elsewhere. -/
def oneHotRow (n i v : Nat) : List Nat :=
  (List.range n).map (fun j => if j = i then v else 0)

/-- `torch.eye(clen)*(spec_inconsistency*spec_concepts)` masked by
`spec_inconsistency`: for every specific row and every position where it
is non-wildcard and differs from the negative example `x`, the one-hot
row carrying the specific row's value at that position. -/
def specializationCandidates (specRows : List (List Nat)) (x : List Nat) :
    List (List Nat) :=
  specRows.flatMap (fun srow =>
    (List.range x.length).filterMap (fun i =>
      if srow.getD i 0 ≠ 0 ∧ srow.getD i 0 ≠ x.getD i 0 then
        some (oneHotRow x.length i (srow.getD i 0))
      else none))

/-- The negative branch of `VersionSpaceILP.ifit` (lines 1179-1205) when
`spec_concepts` is set: returns the new `gen_concepts`. -/
def ifitNegGens (specRows gens : List (List Nat)) (x : List Nat) :
    Except PyErr (List (List Nat)) :=
  if !(rowsWidthOk specRows x.length && rowsWidthOk gens x.length) then
    .error .broadcastError
  else
    let toSpecialz := gens.filter (fun g => consistentB g x)
    let toKeep := gens.filter (fun g => !consistentB g x)
    let sc := specializationCandidates specRows x
    let possible := toSpecialz.flatMap (fun g => sc.map (fun c => mergeWhere g c))
    let specialized :=
      possible.filter (fun p => toKeep.all (fun k => !consistentB k p))
    .ok (toKeep ++ specialized)

/-- `VersionSpaceILP.ifit` when `spec_concepts` is already set (the replay
of deferred examples also lands here, since the seed is installed first). -/
def ifitSome (st : VersionSpaceILP) (x : List Nat) (y : Int) :
    Except PyErr VersionSpaceILP :=
  match st.spec_concepts with
  | none => .error .noneTypeError
  | some S =>
    if 0 < y then
      if !(rowsWidthOk S x.length && rowsWidthOk st.gen_concepts x.length) then
        .error .broadcastError
      else
        .ok { st with
              spec_concepts := some (S.map (fun s => specGeneralize x s)),
              gen_concepts := st.gen_concepts.filter (fun g => consistentB g x) }
    else
      match ifitNegGens S st.gen_concepts x with
      | .error e => .error e
      | .ok gens2 => .ok { st with gen_concepts := gens2 }

/-- `VersionSpaceILP.ifit(x, y)` (lines 1151-1209).  A positive example
with no boundary yet seeds `spec_concepts` with the vector, initializes
`gen_concepts` to one all-wildcard row, and replays the deferred
examples; a negative one before any positive is deferred. -/
def VersionSpaceILP.ifit (st : VersionSpaceILP) (x : List Nat) (y : Int) :
    Except PyErr VersionSpaceILP :=
  match st.spec_concepts with
  | some _ => ifitSome st x y
  | none =>
    if 0 < y then
      let seeded : VersionSpaceILP :=
        ⟨some [x], [List.replicate x.length 0], []⟩
      st.unused_concepts.foldlM (fun s p => ifitSome s p.1 p.2) seeded
    else
      .ok { st with unused_concepts := st.unused_concepts ++ [(x, y)] }

/-- `VersionSpaceILP.check_match(x)` (lines 1218-1223): consistent with
any specific row and with all general rows. -/
def VersionSpaceILP.check_match (st : VersionSpaceILP) (x : List Nat) :
    Except PyErr Bool :=
  match st.spec_concepts with
  | none => .error .noneTypeError
  | some S =>
    if !(rowsWidthOk S x.length && rowsWidthOk st.gen_concepts x.length) then
      .error .broadcastError
    else
      .ok (S.any (fun s => consistentB s x) &&
           st.gen_concepts.all (fun g => consistentB g x))

/-! ## Python values, elements and states

Attribute values occurring in states are strings, numbers, `None`, or
(one level of) lists of those; the `Enumerizer` maps each scalar value
to a small integer code.  An element is an ordered attribute map, a
state is an ordered map from element names to elements (Python dicts
preserve insertion order). -/

inductive PyVal where
  | str (s : String)
  | num (n : Int)
  | pnone
deriving DecidableEq, Repr

inductive AVal where
  | scalar (v : PyVal)
  | arr (vs : List PyVal)
deriving DecidableEq, Repr

instance : Inhabited AVal := ⟨.scalar .pnone⟩

/-- Keys of the dictionaries handed to `Enumerizer.transform`: attribute
names (strings) or the integer keys of the `{i: name}` dictionary built
in `VersionSpace.ifit` line 831. -/
inductive IKey where
  | str (s : String)
  | idx (n : Nat)
deriving DecidableEq, Repr

/-- Keys produced by `instance_iter`: the key itself, or `(key, i)` for
the i-th item of a list-valued attribute. -/
inductive FlatKey where
  | top (k : IKey)
  | item (k : IKey) (i : Nat)
deriving DecidableEq, Repr

abbrev Elem := List (String × AVal)

abbrev PyState := List (String × Elem)

abbrev Inst := List (IKey × AVal)

def elemToInst (e : Elem) : Inst := e.map (fun p => (IKey.str p.1, p.2))

/-- `instance_iter` (lines 1270-1276): flattens list-valued attributes
into `(key, i)` pairs, yields scalar values directly. -/
def iterInst (inst : Inst) : List (FlatKey × PyVal) :=
  inst.flatMap (fun p =>
    match p.2 with
    | .scalar v => [(FlatKey.top p.1, v)]
    | .arr vs => vs.enum.map (fun q => (FlatKey.item p.1 q.1, q.2)))

/-- `k in self.remove_attrs`: only a plain string key can be a member of
the remove list (a tuple key or an int key never is). -/
def removedKey (removeAttrs : List String) (k : FlatKey) : Bool :=
  match k with
  | .top (.str s) => removeAttrs.contains s
  | _ => false

/-! ## Enumerizer (lines 1242-1324)

`VersionSpace` always constructs it with `start_num=0` and
`attrs_independant=False`, so there is a single shared value→code map
`attr_maps[0]`; it is created lazily on first use (and `transform_values`
raises `KeyError` if it does not exist yet).  `back_maps`/`back_keys`
only serve `undo_transform` introspection and carry no information beyond
the map (with `start_num` 0 the next fresh code is
`start_num + len(attr_map)`), so they are not modelled separately. -/

structure Enumerizer where
  start_num : Nat
  force_add : List PyVal
  remove_attrs : List String
  attr_map : Option (List (PyVal × Nat))
  type_lengths : List (PyVal × Nat)
deriving DecidableEq, Repr

/-- Lazy creation of `attr_maps[0]`:
`{x: i+self.start_num for i, x in enumerate(self.force_add)}`. -/
def Enumerizer.ensureMap (e : Enumerizer) : List (PyVal × Nat) × Enumerizer :=
  match e.attr_map with
  | some m => (m, e)
  | none =>
    let m := e.force_add.enum.map (fun p => (p.2, p.1 + e.start_num))
    (m, { e with attr_map := some m })

/-- Look up a value's code, assigning the next code
(`len(self.back_maps[key])`) on first sight. -/
def Enumerizer.encodeVal (e : Enumerizer) (v : PyVal) : Nat × Enumerizer :=
  let (m, e1) := e.ensureMap
  match List.lookup v m with
  | some c => (c, e1)
  | none =>
    let c := e1.start_num + m.length
    (c, { e1 with attr_map := some (m ++ [(v, c)]) })

/-- The encoding loop of `Enumerizer.transform` over the flattened
attribute pairs of one instance: removed keys are skipped, values found
in `force_map` use the forced code without touching the map, all other
values are looked up or assigned in the shared map. -/
def encodeVals (e : Enumerizer) (fm : Option (List (PyVal × Nat))) :
    List (FlatKey × PyVal) → List Nat × Enumerizer
  | [] => ([], e)
  | kv :: rest =>
    if removedKey e.remove_attrs kv.1 then encodeVals e fm rest
    else
      match fm with
      | some m =>
        match List.lookup kv.2 m with
        | some c =>
          let (cs, e2) := encodeVals e fm rest
          (c :: cs, e2)
        | none =>
          let (c, e1) := e.encodeVal kv.2
          let (cs, e2) := encodeVals e1 fm rest
          (c :: cs, e2)
      | none =>
        let (c, e1) := e.encodeVal kv.2
        let (cs, e2) := encodeVals e1 fm rest
        (c :: cs, e2)

/-- `Enumerizer.transform` on a single instance.  An instance with a
`type` attribute has its encoded length checked against the length
recorded the first time that type was seen (`assert` lines 1317-1319,
the spec's SchemaMismatch condition); a list-valued `type` would be used
as an unhashable dict key (`self.back_keys[instance['type']]`, line
1283) and raises `TypeError` before any encoding. -/
def Enumerizer.transformInst (e : Enumerizer) (fm : Option (List (PyVal × Nat)))
    (inst : Inst) : Except PyErr (List Nat × Enumerizer) :=
  match List.lookup (IKey.str "type") inst with
  | some (.arr _) => .error .typeError
  | some (.scalar tv) =>
    let (codes, e1) := encodeVals e fm (iterInst inst)
    match List.lookup tv e1.type_lengths with
    | some L =>
      if codes.length = L then .ok (codes, e1) else .error .schemaMismatch
    | none =>
      .ok (codes, { e1 with type_lengths := e1.type_lengths ++ [(tv, codes.length)] })
  | none =>
    let (codes, e1) := encodeVals e fm (iterInst inst)
    .ok (codes, e1)

/-- `Enumerizer.transform` on a list of instances, threading the encoder
state; a failing instance aborts the whole call (Python exception). -/
def Enumerizer.transformList (e : Enumerizer) (fm : Option (List (PyVal × Nat))) :
    List Inst → Except PyErr (List (List Nat) × Enumerizer)
  | [] => .ok ([], e)
  | inst :: rest =>
    match e.transformInst fm inst with
    | .error err => .error err
    | .ok (codes, e1) =>
      match e1.transformList fm rest with
      | .error err => .error err
      | .ok (rest2, e2) => .ok (codes :: rest2, e2)

/-- `Enumerizer.transform_values` (lines 1255-1259): pure lookups in
`attr_maps[0]`; `KeyError` if the map does not exist or a value was
never encoded. -/
def Enumerizer.transformValues (e : Enumerizer) (vals : List PyVal) :
    Except PyErr (List Nat) :=
  match e.attr_map with
  | none => .error .keyError
  | some m =>
    vals.mapM (fun v =>
      match List.lookup v m with
      | some c => Except.ok c
      | none => Except.error PyErr.keyError)

/-- The encoder built by `VersionSpace.initialize(n)` (lines 805-807). -/
def mkEnum (n : Nat) : Enumerizer :=
  { start_num := 0,
    force_add := [PyVal.str "<#ANY>", PyVal.pnone, PyVal.str "?sel"] ++
      (List.range (n - 1)).map (fun i => PyVal.str ("?arg" ++ toString i)),
    remove_attrs := ["value"],
    attr_map := none,
    type_lengths := [] }

/-! ## rename_values (lines 1226-1239), specialized to the renaming done
in `VersionSpace.ifit`/`check_match`: a dict from element names to slot
placeholders, applied to values only (`rename_keys=False`).  A Python
dict comprehension keeps the last binding of a duplicated key. -/

def renameVal (mapping : List (String × String)) (v : PyVal) : PyVal :=
  match v with
  | .str s =>
    match List.lookup s mapping.reverse with
    | some r => .str r
    | none => .str s
  | other => other

def renameAVal (mapping : List (String × String)) (a : AVal) : AVal :=
  match a with
  | .scalar v => .scalar (renameVal mapping v)
  | .arr vs => .arr (vs.map (renameVal mapping))

def renameElem (mapping : List (String × String)) (el : Elem) : Elem :=
  el.map (fun p => (p.1, renameAVal mapping p.2))

/-- `{ele: "?sel" if i == 0 else "?arg%d" % (i-1) for i, ele in enumerate(t)}`. -/
def mkMapping (t : List String) : List (String × String) :=
  t.enum.map (fun p => (p.2, if p.1 = 0 then "?sel" else "?arg" ++ toString (p.1 - 1)))

/-! ## VersionSpace (lines 789-1139) -/

structure VersionSpace where
  pos_concepts : VersionSpaceILP
  neg_concepts : Option VersionSpaceILP
  propose_gens : Bool
  constraints : Option ((Elem → Bool) × (Elem → Bool))
  use_neg : Bool
  elem_slices : Option (List Nat)
  elem_types : Option (List AVal)
  initialized : Bool
  pos_ok : Bool
  neg_ok : Bool
  num_elems : Nat
  enumerizer : Enumerizer

/-- `VersionSpace.__init__` (lines 790-800).  `num_elems` and
`enumerizer` do not exist before `initialize` runs and are never read
before it; the placeholder values here are unobservable. -/
def VersionSpace.mk0 (use_neg : Bool)
    (constraints : Option ((Elem → Bool) × (Elem → Bool))) : VersionSpace :=
  { pos_concepts := ilpInit,
    neg_concepts := if use_neg then some ilpInit else none,
    propose_gens := true,
    constraints := constraints,
    use_neg := use_neg,
    elem_slices := none,
    elem_types := none,
    initialized := false,
    pos_ok := false,
    neg_ok := false,
    num_elems := 0,
    enumerizer := mkEnum 0 }

/-- The lookups `x[t_name]` performed over the tuple (a missing name is
a Python `KeyError`). -/
def lookupElems (state : PyState) (t : List String) : Except PyErr (List Elem) :=
  t.mapM (fun nm =>
    match List.lookup nm state with
    | some el => Except.ok el
    | none => Except.error PyErr.keyError)

/-- `[0] + np.cumsum(lengths)`. -/
def cumFrom0 (ls : List Nat) : List Nat := ls.scanl (· + ·) 0

/-- `VersionSpace.ifit(t, x, y)` (lines 810-849).  The body of
`initialize(len(t))` (lines 802-808) is inlined at its single call
site. -/
def VersionSpace.ifit (st : VersionSpace) (t : List String) (state : PyState)
    (y : Int) : Except PyErr VersionSpace :=
  match lookupElems state t with
  | .error e => .error e
  | .ok elemsOfT =>
  if elemsOfT.all (fun el => (List.lookup "type" el).isSome) = false then
    .error .assertionError
  else
  match (if st.initialized then some st
         else if t.length < 1 then none
         else some { st with
            initialized := true,
            num_elems := t.length,
            enumerizer := mkEnum t.length,
            elem_types :=
              some (elemsOfT.map (fun el => (List.lookup "type" el).getD default)) }) with
  | none => .error .assertionError
  | some st1 =>
  if t.length ≠ st1.num_elems then .error .schemaMismatch
  else
  let instances := elemsOfT.map (fun el => renameElem (mkMapping t) el)
  match st1.enumerizer.transformList none (instances.map elemToInst) with
  | .error e => .error e
  | .ok (vs_elems, en1) =>
  match en1.transformList none
      [state.enum.map (fun p => (IKey.idx p.1, AVal.scalar (PyVal.str p.2.1)))] with
  | .error e => .error e
  | .ok (_, en2) =>
  match en2.transformList none ((state.map Prod.snd).map elemToInst) with
  | .error e => .error e
  | .ok (_, en3) =>
  let slices :=
    match st1.elem_slices with
    | some s => some s
    | none => some (cumFrom0 (vs_elems.map List.length))
  let flat := vs_elems.flatten
  match st1.pos_concepts.ifit flat y with
  | .error e => .error e
  | .ok pos1 =>
  let st2 := { st1 with
    enumerizer := en3,
    elem_slices := slices,
    pos_concepts := pos1,
    pos_ok := st1.pos_ok || decide (0 < y) }
  if st2.use_neg then
    match st2.neg_concepts with
    | none => .error .noneTypeError
    | some nc =>
      match nc.ifit flat (if 0 < y then 0 else 1) with
      | .error e => .error e
      | .ok neg1 =>
        .ok { st2 with neg_concepts := some neg1,
                       neg_ok := st2.neg_ok || decide (y < 0) }
  else .ok st2

/-- `VersionSpace.check_constraints(t, x)` (lines 858-865): the first
slot uses `constraints[0]`, every other slot `constraints[1]`; a missing
element name is a `KeyError`. -/
def checkConstraintsAux (cs : (Elem → Bool) × (Elem → Bool)) (state : PyState) :
    Nat → List String → Except PyErr Bool
  | _, [] => .ok true
  | i, nm :: rest =>
    match List.lookup nm state with
    | none => .error .keyError
    | some el =>
      if (if i = 0 then cs.1 el else cs.2 el) then
        checkConstraintsAux cs state (i + 1) rest
      else .ok false

def VersionSpace.check_constraints (st : VersionSpace) (t : List String)
    (state : PyState) : Except PyErr Bool :=
  match st.constraints with
  | none => .ok true
  | some cs => checkConstraintsAux cs state 0 t

/-- `torch.tensor(vs_elem, ...).view(1, -1)`: building a tensor from a
list of per-slot code vectors requires them rectangular (a ragged nested
list is a `ValueError`), then flattens. -/
def tensor2Flatten (rows : List (List Nat)) : Except PyErr (List Nat) :=
  match rows with
  | [] => .ok []
  | r0 :: _ =>
    if rows.all (fun r => r.length == r0.length) then .ok rows.flatten
    else .error .valueError

/-- `((ng == ZERO) | (ng == ps) | (ng != x)).all(dim=-1)` on one
broadcast row pair `(n, p)` against the example vector `x`. -/
def negConsRow (n p x : List Nat) : Bool :=
  ((n.zip p).zip x).all (fun q => q.1.1 == 0 || q.1.1 == q.1.2 || q.1.1 != q.2)

/-- torch row-count broadcasting between two row stacks: equal counts
pair up elementwise, a single row broadcasts against the other stack,
anything else is a runtime error. -/
def bcastRows (a b : List (List Nat)) :
    Except PyErr (List (List Nat × List Nat)) :=
  if a.length = b.length then .ok (a.zip b)
  else if a.length = 1 then .ok (b.map (fun r => (a.headD [], r)))
  else if b.length = 1 then .ok (a.map (fun r => (r, b.headD [])))
  else .error .broadcastError

/-- `VersionSpace.check_match(t, x)` (lines 867-905). -/
def VersionSpace.check_match (st : VersionSpace) (t : List String)
    (state : PyState) : Except PyErr Bool :=
  if st.pos_ok = false then .ok false
  else
  match st.check_constraints t state with
  | .error e => .error e
  | .ok cok =>
  if cok = false then .ok false
  else
  match lookupElems state t with
  | .error e => .error e
  | .ok elemsOfT =>
  let instances := elemsOfT.map (fun el => renameElem (mkMapping t) el)
  match st.enumerizer.transformList none (instances.map elemToInst) with
  | .error e => .error e
  | .ok (vs_elem, _) =>
  if st.use_neg then
    match tensor2Flatten vs_elem with
    | .error e => .error e
    | .ok x =>
    match st.pos_concepts.spec_concepts with
    | none => .error .noneTypeError
    | some ps =>
    let pg := st.pos_concepts.gen_concepts
    if !(rowsWidthOk ps x.length && rowsWidthOk pg x.length) then
      .error .broadcastError
    else
    let out := ps.any (fun s => consistentB s x) &&
               pg.all (fun g => consistentB g x)
    if st.neg_ok then
      match st.neg_concepts with
      | none => .error .noneTypeError
      | some nc =>
      match nc.spec_concepts with
      | none => .error .noneTypeError
      | some ns =>
      let ng := nc.gen_concepts
      if !(rowsWidthOk ns x.length && rowsWidthOk ng x.length) then
        .error .broadcastError
      else
      match bcastRows ng ps, bcastRows ns ps with
      | .ok pairsG, .ok pairsS =>
        .ok (out && pairsG.any (fun pr => negConsRow pr.1 pr.2 x) &&
                    pairsS.any (fun pr => negConsRow pr.1 pr.2 x))
      | .error e, _ => .error e
      | _, .error e => .error e
    else .ok out
  else
    match tensor2Flatten vs_elem with
    | .error e => .error e
    | .ok x => st.pos_concepts.check_match x

/-! ## VersionSpace.get_matches (lines 907-1119)

The tensor shapes of the source are flattened into lists with explicit
index arithmetic; each `(n_w, N_t, d_t)` mask becomes a boolean-valued
function of the corresponding indices. -/

/-- `ps[:, s[i]:s[i+1]]` on one row (Python slicing clamps out-of-range
bounds). -/
def sliceRow (r : List Nat) (a b : Nat) : List Nat := (r.drop a).take (b - a)

/-- The per-type containers built at the first part that mentions a type
(lines 974-985): candidate indices into the state, their raw and
scrubbed code vectors, and their name codes. -/
structure TypeData where
  candIdx : List Nat
  cnd : List (List Nat)
  cndS : List (List Nat)
  names : List Nat
deriving Repr, Inhabited

/-- `[i for i, e in enumerate(elem_names_list) if state[e]["type"] == typ]`
(line 975): every element of the state is inspected, so any element
without a `type` attribute raises `KeyError`. -/
def candIdxOfType (state : PyState) (typ : AVal) : Except PyErr (List Nat) :=
  state.enum.foldlM (fun acc p =>
    match List.lookup "type" p.2.2 with
    | none => Except.error PyErr.keyError
    | some tv => Except.ok (if tv = typ then acc ++ [p.1] else acc)) []

/-- `torch.tensor` on a nested list requires rectangular rows. -/
def tensor2Rect (rows : List (List Nat)) : Except PyErr Unit :=
  match rows with
  | [] => .ok ()
  | r0 :: _ =>
    if rows.all (fun r => r.length == r0.length) then .ok ()
    else .error .valueError

def buildTypeData (state : PyState) (elems elemsScrubbed : List (List Nat))
    (elemNames : List Nat) (typ : AVal) (dI : Nat) : Except PyErr TypeData :=
  match candIdxOfType state typ with
  | .error e => .error e
  | .ok candIdx =>
  let cnd := candIdx.map (fun i => elems.getD i [])
  match tensor2Rect cnd with
  | .error e => .error e
  | .ok _ =>
  let cndS := candIdx.map (fun i => elemsScrubbed.getD i [])
  match tensor2Rect cndS with
  | .error e => .error e
  | .ok _ =>
  -- `cnd_s.view(len(candidate_indices), 1, ps_i.size(-1))` needs the
  -- element width to equal the concept slice width
  if cndS.all (fun r => r.length == dI) = false then .error .viewError
  else
    .ok { candIdx := candIdx, cnd := cnd, cndS := cndS,
          names := candIdx.map (fun i => elemNames.getD i 0) }

/-- All rows across the operand stacks share one trailing width
(elementwise torch ops broadcast only equal trailing dims here). -/
def widthsHomog (lists : List (List (List Nat))) : Bool :=
  match lists.flatMap id with
  | [] => true
  | r0 :: rest => rest.all (fun r => r.length == r0.length)

/-- Phase-1 consistency of each scrubbed candidate with the concept
slice (lines 999-1003): a scrubbed zero in the candidate is always
consistent; in negative-tracking mode the candidate must additionally
avoid the negative concept slice except where it coincides with the
positive one. -/
def phase1Consistency (psI : List (List Nat)) (nsI : Option (List (List Nat)))
    (cndS : List (List Nat)) : Except PyErr (List Bool) :=
  if widthsHomog [psI, nsI.getD [], cndS] = false then .error .broadcastError
  else
    let base := cndS.map (fun c =>
      psI.any (fun p => (p.zip c).all (fun q => q.1 == 0 || q.1 == q.2 || q.2 == 0)))
    match nsI with
    | none => .ok base
    | some ns =>
      match bcastRows ns psI with
      | .error e => .error e
      | .ok pairs =>
        let negRes := cndS.map (fun c =>
          pairs.any (fun pr => ((pr.1.zip pr.2).zip c).all
            (fun q => q.1.1 == 0 || q.1.1 != q.2 || q.1.2 == q.1.1 || q.2 == 0)))
        .ok (List.zipWith (fun a b => a && b) base negRes)

/-- Per-part data collected by phase 1: the concept slices, the
broadcast (positive row, negative row) pairs when negative tracking is
active, and the indices (`concept_cand_indicies`) and name codes
(`concept_candidates`) of the phase-1-consistent candidates. -/
structure PartData where
  typ : AVal
  psI : List (List Nat)
  pairsPN : Option (List (List Nat × List Nat))
  candRel : List Nat
  candNames : List Nat
deriving Inhabited

/-- The phase-1 loop (lines 971-1020), threading the per-type cache. -/
def phase1 (state : PyState) (elems elemsScrubbed : List (List Nat))
    (elemNames : List Nat) :
    List (AVal × List (List Nat) × Option (List (List Nat))) →
    List (AVal × TypeData) →
    Except PyErr (List PartData × List (AVal × TypeData))
  | [], cache => .ok ([], cache)
  | (typ, psI, nsI) :: rest, cache =>
    let dI := (psI.headD []).length
    match (match List.lookup typ cache with
           | some td => Except.ok (td, cache)
           | none =>
             match buildTypeData state elems elemsScrubbed elemNames typ dI with
             | .error e => Except.error e
             | .ok td => Except.ok (td, cache ++ [(typ, td)])) with
    | .error e => .error e
    | .ok (td, cache1) =>
    match phase1Consistency psI nsI td.cndS with
    | .error e => .error e
    | .ok consistency =>
    match (match nsI with
           | none => Except.ok none
           | some ns =>
             match bcastRows psI ns with
             | .error e => Except.error e
             | .ok pairs => Except.ok (some pairs)) with
    | .error e => .error e
    | .ok pairsPN =>
    let pd : PartData :=
      { typ := typ, psI := psI, pairsPN := pairsPN,
        candRel := (consistency.enum.filter (fun p => p.2)).map Prod.fst,
        candNames := ((td.names.zip consistency).filter (fun p => p.2)).map Prod.fst }
    match phase1 state elems elemsScrubbed elemNames rest cache1 with
    | .error e => .error e
    | .ok (parts, cache2) => .ok (pd :: parts, cache2)

/-- `repl_consistency` (lines 1056-1072) at one candidate choice `r` for
part `j` and one element `e` of part `i`'s type: some positive concept
row must, at every position it pins to part `j`'s placeholder code,
find the chosen candidate's name in the raw element vector (and, with
negative tracking, not thereby match the negative concept row). -/
def replConsistency (parts : List PartData) (cache : List (AVal × TypeData))
    (wherePartVals : List Nat) (i j r e : Nat) : Bool :=
  let pdI := parts.getD i default
  let pdJ := parts.getD j default
  let td := (List.lookup pdI.typ cache).getD default
  let v := wherePartVals.getD j 0
  let nameR := pdJ.candNames.getD r 0
  let crow := td.cnd.getD e []
  let d := (pdI.psI.headD []).length
  match pdI.pairsPN with
  | none =>
    pdI.psI.any (fun p => (List.range d).all (fun a =>
      !(p.getD a 0 == v) || ((crow.getD a 0 == nameR) && (p.getD a 0 == v))))
  | some pairs =>
    pairs.any (fun pr => (List.range d).all (fun a =>
      let psC := pr.1.getD a 0 == v
      let nsC := (pr.2.getD a 0 != v) || (pr.1.getD a 0 == pr.2.getD a 0)
      !psC || ((crow.getD a 0 == nameR) && (psC && nsC))))

/-- `ok_i` (lines 1050-1090) at one joint assignment `rv`: some element
`e` of part `i`'s type satisfies every part's replacement constraint,
where for `j = i` the element must be exactly the assigned candidate
(the diagonal mask of line 1079). -/
def okI (parts : List PartData) (cache : List (AVal × TypeData))
    (wherePartVals : List Nat) (rv : List Nat) (i : Nat) : Bool :=
  let pd := parts.getD i default
  let td := (List.lookup pd.typ cache).getD default
  (List.range td.cnd.length).any (fun e =>
    (List.range parts.length).all (fun j =>
      replConsistency parts cache wherePartVals i j (rv.getD j 0) e &&
      (!(i == j) || (pd.candRel.getD (rv.getD i 0) 0 == e))))

/-- All joint assignments in the row-major order of `tot.nonzero()`. -/
def cartProd (ls : List (List Nat)) : List (List Nat) :=
  ls.foldr (fun l acc => l.flatMap (fun a => acc.map (fun rest => a :: rest))) [[]]

/-- The joint phase (lines 1041-1097): every combination of per-part
phase-1 candidates is tested against every concept.  A part whose type
has no elements at all leaves `candidates_by_type[typ]` as an empty 1-D
tensor, whose broadcast against the `(…, d)` consistency mask is a
torch runtime error unless `d == 1`. -/
def jointPhase (parts : List PartData) (cache : List (AVal × TypeData))
    (wherePartVals : List Nat) : Except PyErr (List (List Nat)) :=
  if parts.any (fun pd =>
      ((List.lookup pd.typ cache).getD default).cnd.isEmpty &&
      !((pd.psI.headD []).length == 1)) then
    .error .broadcastError
  else
    let assignments := cartProd (parts.map (fun pd => List.range pd.candNames.length))
    .ok (assignments.filter (fun rv =>
      (List.range parts.length).all (fun i => okI parts cache wherePartVals rv i)))

/-- `VersionSpace.get_matches(x)` (lines 907-1119), returning the list
of yielded tuples in generator order. -/
def VersionSpace.get_matches (st : VersionSpace) (state : PyState) :
    Except PyErr (List (List String)) :=
  if st.pos_ok = false then .ok []
  else
  match st.elem_slices with
  | none => .ok []
  | some s =>
  match st.enumerizer.transformValues
      ((PyVal.str "?sel") :: (List.range (st.num_elems - 1)).map
        (fun i => PyVal.str ("?arg" ++ toString i))) with
  | .error e => .error e
  | .ok wherePartVals =>
  let elemNamesList := state.map Prod.fst
  match st.enumerizer.transformValues (elemNamesList.map PyVal.str) with
  | .error e => .error e
  | .ok elemNames =>
  match st.enumerizer.transformList none ((state.map Prod.snd).map elemToInst) with
  | .error e => .error e
  | .ok (elems, en1) =>
  match st.elem_types with
  | none => .error .noneTypeError
  | some elemTypesL =>
  let zeroMap := state.filterMap (fun p =>
    match List.lookup "type" p.2 with
    | some tv => if elemTypesL.contains tv then some (PyVal.str p.1, 0) else none
    | none => none)
  match en1.transformList (some zeroMap) ((state.map Prod.snd).map elemToInst) with
  | .error e => .error e
  | .ok (elemsScrubbed, _) =>
  match st.pos_concepts.spec_concepts with
  | none => .error .noneTypeError
  | some psRows =>
  let nParts := s.length - 1
  let splitPs := (List.range nParts).map (fun i =>
    psRows.map (fun r => sliceRow r (s.getD i 0) (s.getD (i + 1) 0)))
  match (if st.neg_ok then
          match st.neg_concepts with
          | none => Except.error PyErr.noneTypeError
          | some nc =>
            match nc.spec_concepts with
            | none => Except.error PyErr.noneTypeError
            | some nsRows =>
              Except.ok (some ((List.range nParts).map (fun i =>
                nsRows.map (fun r => sliceRow r (s.getD i 0) (s.getD (i + 1) 0)))))
         else Except.ok none) with
  | .error e => .error e
  | .ok splitNsOpt =>
  let nsList := match splitNsOpt with
    | some l => l.map some
    | none => List.replicate splitPs.length none
  let zipped := (elemTypesL.zip (splitPs.zip nsList)).map
    (fun p => (p.1, p.2.1, p.2.2))
  match phase1 state elems elemsScrubbed elemNames zipped [] with
  | .error e => .error e
  | .ok (parts, cache) =>
  match jointPhase parts cache wherePartVals with
  | .error e => .error e
  | .ok matchesL =>
  let translated := matchesL.map (fun rv =>
    (List.range parts.length).map (fun i =>
      let pd := parts.getD i default
      let td := (List.lookup pd.typ cache).getD default
      elemNamesList.getD (td.candIdx.getD (pd.candRel.getD (rv.getD i 0) 0) 0) ""))
  translated.foldlM (fun acc out =>
    match st.check_constraints out state with
    | .error e => Except.error e
    | .ok b => Except.ok (if b then acc ++ [out] else acc)) []

/-! ## Comparison definition and concrete scenarios -/

/-- The negative-example update of the general boundary as claim C3
words it (a refinement-comparison definition written from the spec, not
from the source): keep the general hypotheses that do not match the
negative vector, and add the one-position specializations of the
specific boundary, each kept exactly when it is consistent with every
retained keeper. -/
def claimC3Gens (specRows gens : List (List Nat)) (x : List Nat) :
    List (List Nat) :=
  let keep := gens.filter (fun g => !consistentB g x)
  let cands := specializationCandidates specRows x
  keep ++ cands.filter (fun c => keep.all (fun k => consistentB k c))

/-- Two elements of the same type `A` that name each other in a
`friend` attribute. -/
def stateS4 : PyState :=
  [("a1", [("type", AVal.scalar (PyVal.str "A")),
           ("friend", AVal.scalar (PyVal.str "a2"))]),
   ("a2", [("type", AVal.scalar (PyVal.str "A")),
           ("friend", AVal.scalar (PyVal.str "a1"))])]

/-- One positive fit of a 1-slot concept on `stateS4`. -/
def runS4 : Except PyErr VersionSpace :=
  (VersionSpace.mk0 false none).ifit ["a1"] stateS4 1

/-- A well-formed element `a1` next to an element `m1` that has no
`type` attribute. -/
def stateS8 : PyState :=
  [("a1", [("type", AVal.scalar (PyVal.str "A")),
           ("color", AVal.scalar (PyVal.str "red"))]),
   ("m1", [("color", AVal.scalar (PyVal.str "blue"))])]

/-- One positive fit of a 1-slot concept on `stateS8` (training
tolerates the malformed non-tuple element). -/
def runS8 : Except PyErr VersionSpace :=
  (VersionSpace.mk0 false none).ifit ["a1"] stateS8 1

/-- A minimal single-element state for the negative-tracking scenario. -/
def stateS9 : PyState := [("a1", [("type", AVal.scalar (PyVal.str "ta"))])]

/-- A concept whose slot arity was fixed at 2 by its first training
example (for exercising the arity check). -/
def vsTwoSlots : VersionSpace :=
  { VersionSpace.mk0 false none with
    initialized := true,
    num_elems := 2,
    enumerizer := mkEnum 2,
    elem_types := some [AVal.scalar (PyVal.str "A"), AVal.scalar (PyVal.str "A")] }

/-- An encoder that has recorded 3 attribute positions for type `A`. -/
def enumTypeA3 : Enumerizer :=
  { start_num := 0, force_add := [], remove_attrs := ["value"],
    attr_map := none, type_lengths := [(PyVal.str "A", 3)] }

/-- Decidable equality of `Except` results, for evaluating the model at
concrete inputs. -/
instance {ε α : Type} [DecidableEq ε] [DecidableEq α] :
    DecidableEq (Except ε α) := fun a b =>
  match a, b with
  | .ok x, .ok y =>
    if h : x = y then isTrue (h ▸ rfl)
    else isFalse (fun hc => h (Except.ok.inj hc))
  | .error x, .error y =>
    if h : x = y then isTrue (h ▸ rfl)
    else isFalse (fun hc => h (Except.error.inj hc))
  | .ok _, .error _ => isFalse (fun hc => Except.noConfusion hc)
  | .error _, .ok _ => isFalse (fun hc => Except.noConfusion hc)

/-! ## Theorems -/

/-- C1: for a concept with at least one positive example fitted
(`spec_concepts` is set) and negative tracking disabled, `check_match`
on an encoded vector returns true iff the vector is consistent with at
least one specific-boundary row and with every general-boundary row,
where hypothesis `h` is consistent with `x` iff at every position
`h[i] == 0` or `h[i] == x[i]`. -/
theorem check_match_accepts_iff (st : VersionSpaceILP) (S : List (List Nat))
    (x : List Nat) (hS : st.spec_concepts = some S)
    (hw : (rowsWidthOk S x.length && rowsWidthOk st.gen_concepts x.length) = true) :
    st.check_match x = .ok true ↔
      ((∃ s ∈ S, ConsistentP s x) ∧ ∀ g ∈ st.gen_concepts, ConsistentP g x) := by
  simp [VersionSpaceILP.check_match, hS, hw, List.any_eq_true, List.all_eq_true,
    consistentB_iff]

/-- Witness for C1 at a concrete boundary pair and vector. -/
theorem check_match_accepts_iff_w :
    ((⟨some [[1, 0]], [[0, 2]], []⟩ : VersionSpaceILP).check_match [1, 2] = .ok true ↔
      ((∃ s ∈ [[1, 0]], ConsistentP s [1, 2]) ∧
        ∀ g ∈ [[0, 2]], ConsistentP g [1, 2])) :=
  check_match_accepts_iff ⟨some [[1, 0]], [[0, 2]], []⟩ [[1, 0]] [1, 2] rfl (by decide)

/-- C6: a concept that has never been fitted with a positive example
(`pos_ok` false) rejects every tuple in `check_match`, yields no matches
in `get_matches`, and neither call raises an error. -/
theorem unfitted_concept_empty (st : VersionSpace) (t : List String)
    (state : PyState) (h : st.pos_ok = false) :
    st.check_match t state = .ok false ∧ st.get_matches state = .ok [] := by
  refine ⟨?_, ?_⟩
  · simp [VersionSpace.check_match, h]
  · simp [VersionSpace.get_matches, h]

/-- Witness for C6 on a freshly constructed matcher and a nonempty
tuple/state. -/
theorem unfitted_concept_empty_w :
    (VersionSpace.mk0 false none).check_match ["a1"] stateS9 = .ok false ∧
      (VersionSpace.mk0 false none).get_matches stateS9 = .ok [] :=
  unfitted_concept_empty (VersionSpace.mk0 false none) ["a1"] stateS9 rfl

/-- C4 (code bug): after one legal positive fit of a one-slot concept on
`stateS4`, `get_matches` yields `("a2")` although `check_match` rejects
it — the two entry points disagree because the matched-type
self-reference scrub hides the `friend` position from phase 1 and the
joint phase only re-tests positions holding slot-placeholder codes. -/
theorem get_matches_check_match_disagree :
    runS4.bind (fun s => s.get_matches stateS4) = .ok [["a1"], ["a2"]] ∧
      runS4.bind (fun s => s.check_match ["a2"] stateS4) = .ok false ∧
      runS4.bind (fun s => s.check_match ["a1"] stateS4) = .ok true := by
  decide

/-- C8 (code bug): on a state containing an element without a `type`
attribute, `get_matches` raises `KeyError` (line 975 reads
`state[e]["type"]` for every element) instead of excluding the element,
even though training on the same state succeeded. -/
theorem get_matches_missing_type_raises :
    runS8.bind (fun s => s.get_matches stateS8) = .error .keyError ∧
      runS8.map (fun s => s.pos_ok) = .ok true := by
  decide

/-- C9 (code bug): in negative-tracking mode, a fit with label 0 — a
negative example per the interface convention — updates the negative
concept pair but leaves `neg_ok` false (`self.neg_ok = self.neg_ok or
y < 0` at line 849 tests `y < 0`, not `y <= 0`); only a negative label
strictly below zero sets it. -/
theorem neg_ok_not_set_on_zero_label :
    (((VersionSpace.mk0 true none).ifit ["a1"] stateS9 1).bind
        (fun s => s.ifit ["a1"] stateS9 0)).map VersionSpace.neg_ok = .ok false ∧
      (((VersionSpace.mk0 true none).ifit ["a1"] stateS9 1).bind
          (fun s => s.ifit ["a1"] stateS9 0)).map
        (fun s => match s.neg_concepts with
          | some nc => nc.spec_concepts.isSome
          | none => false) = .ok true ∧
      (((VersionSpace.mk0 true none).ifit ["a1"] stateS9 1).bind
          (fun s => s.ifit ["a1"] stateS9 (-1))).map VersionSpace.neg_ok = .ok true := by
  decide

/-! ### Helper lemmas on the ILP updater -/

theorem specGeneralize_getD (x s : List Nat) (i : Nat) (hx : i < x.length)
    (hs : i < s.length) :
    (specGeneralize x s).getD i 0 =
      if x.getD i 0 = s.getD i 0 then s.getD i 0 else 0 := by
  have hz : i < (specGeneralize x s).length := by
    simp only [specGeneralize, List.length_zipWith]
    omega
  rw [List.getD_eq_getElem _ _ hz, List.getD_eq_getElem _ _ hx,
    List.getD_eq_getElem _ _ hs]
  simp only [specGeneralize, List.getElem_zipWith]
  by_cases h : x[i] = s[i] <;> simp [h]

theorem specGeneralize_length (x s : List Nat) (hlen : s.length = x.length) :
    (specGeneralize x s).length = s.length := by
  simp [specGeneralize, List.length_zipWith, hlen]

/-- With the specific boundary present, `ifit` is exactly the
spec-present branch. -/
theorem ifit_spec_some_eq (st : VersionSpaceILP) (x : List Nat) (y : Int)
    (S : List (List Nat)) (hS : st.spec_concepts = some S) :
    st.ifit x y = ifitSome st x y := by
  unfold VersionSpaceILP.ifit
  rw [hS]

/-- A negative example leaves `spec_concepts` untouched in the
spec-present branch. -/
theorem ifitSome_nonpos_spec (st : VersionSpaceILP) (x : List Nat) (y : Int)
    (hy : ¬ 0 < y) (st2 : VersionSpaceILP) (h : ifitSome st x y = .ok st2) :
    st2.spec_concepts = st.spec_concepts := by
  unfold ifitSome at h
  cases hS : st.spec_concepts with
  | none => rw [hS] at h; exact absurd h (by simp)
  | some S =>
    rw [hS] at h
    simp only [hy, if_false, reduceIte] at h
    cases hg : ifitNegGens S st.gen_concepts x with
    | error e => rw [hg] at h; exact absurd h (by simp)
    | ok g2 =>
      rw [hg] at h
      cases h
      simp [hS]

/-- A positive example in the spec-present branch rewrites each specific
row by `specGeneralize` (and forces the widths to agree). -/
theorem ifitSome_pos_spec (st : VersionSpaceILP) (x : List Nat) (y : Int)
    (S : List (List Nat)) (hy : 0 < y) (hS : st.spec_concepts = some S)
    (st2 : VersionSpaceILP) (h : ifitSome st x y = .ok st2) :
    st2.spec_concepts = some (S.map (fun s => specGeneralize x s)) ∧
      rowsWidthOk S x.length = true := by
  unfold ifitSome at h
  rw [hS] at h
  simp only [hy, if_true, reduceIte] at h
  by_cases hw : (rowsWidthOk S x.length && rowsWidthOk st.gen_concepts x.length) = true
  · rw [hw] at h
    simp only [Bool.not_true, Bool.false_eq_true, if_false, reduceIte] at h
    cases h
    exact ⟨rfl, Bool.and_elim_left hw⟩
  · rw [Bool.not_eq_true] at hw
    rw [hw] at h
    simp at h

/-- `ifitSome` preserves the singleton shape of the specific boundary. -/
theorem ifitSome_singleton (st : VersionSpaceILP) (x : List Nat) (y : Int)
    (st2 : VersionSpaceILP) (h : ifitSome st x y = .ok st2)
    (hs : ∃ s, st.spec_concepts = some [s]) :
    ∃ s2, st2.spec_concepts = some [s2] := by
  obtain ⟨s, hS⟩ := hs
  by_cases hy : 0 < y
  · obtain ⟨h2, -⟩ := ifitSome_pos_spec st x y [s] hy hS st2 h
    exact ⟨specGeneralize x s, by simpa using h2⟩
  · exact ⟨s, (ifitSome_nonpos_spec st x y hy st2 h) ▸ hS⟩

/-- Invariant propagation along a monadic fold that succeeded. -/
theorem foldlM_except_inv {α β : Type} (step : α → β → Except PyErr α)
    (P : α → Prop) (l : List β)
    (hstep : ∀ b ∈ l, ∀ a a2, P a → step a b = .ok a2 → P a2) :
    ∀ a0 a1, l.foldlM step a0 = .ok a1 → P a0 → P a1 := by
  induction l with
  | nil =>
    intro a0 a1 h hP
    rw [List.foldlM_nil] at h
    cases h
    exact hP
  | cons b bs ih =>
    intro a0 a1 h hP
    rw [List.foldlM_cons] at h
    cases hs : step a0 b with
    | error e =>
      rw [hs] at h
      exact Except.noConfusion
        (show (Except.error e : Except PyErr α) = Except.ok a1 from h)
    | ok a0' =>
      rw [hs] at h
      exact ih (fun c hc => hstep c (List.mem_cons_of_mem _ hc)) a0' a1 h
        (hstep b (List.mem_cons_self _ _) a0 a0' hP hs)

/-- C2: a positive `ifit` call with no specific boundary yet seeds the
boundary with exactly the given vector, initializes the general boundary
to a single all-wildcard row, and replays every deferred example (all of
which are negative in any reachable state, so the seeded vector
survives the replay); with a boundary already present it generalizes
each specific row position-wise (positions that differ from the new
vector become wildcard 0) and discards every general hypothesis
inconsistent with the new positive vector. -/
theorem ifit_positive_cases (st : VersionSpaceILP) (x : List Nat) (y : Int)
    (hy : 0 < y) :
    (st.spec_concepts = none →
      (st.ifit x y =
        st.unused_concepts.foldlM (fun s p => ifitSome s p.1 p.2)
          ⟨some [x], [List.replicate x.length 0], []⟩) ∧
      ((∀ p ∈ st.unused_concepts, ¬ 0 < p.2) → ∀ st2, st.ifit x y = .ok st2 →
        st2.spec_concepts = some [x])) ∧
    (∀ S, st.spec_concepts = some S →
      rowsWidthOk S x.length = true → rowsWidthOk st.gen_concepts x.length = true →
      st.ifit x y = .ok { st with
          spec_concepts := some (S.map (fun s => specGeneralize x s)),
          gen_concepts := st.gen_concepts.filter (fun g => consistentB g x) } ∧
      (∀ s ∈ S, ∀ i, i < x.length → i < s.length →
        (specGeneralize x s).getD i 0 =
          if x.getD i 0 = s.getD i 0 then s.getD i 0 else 0)) := by
  constructor
  · intro hnone
    have heq : st.ifit x y =
        st.unused_concepts.foldlM (fun s p => ifitSome s p.1 p.2)
          ⟨some [x], [List.replicate x.length 0], []⟩ := by
      unfold VersionSpaceILP.ifit
      rw [hnone]
      simp only [hy, if_true, reduceIte]
    refine ⟨heq, fun hneg st2 h2 => ?_⟩
    rw [heq] at h2
    exact foldlM_except_inv (fun s p => ifitSome s p.1 p.2)
      (fun a => a.spec_concepts = some [x]) st.unused_concepts
      (fun p hp a a2 hPa hstep =>
        (ifitSome_nonpos_spec a p.1 p.2 (hneg p hp) a2 hstep).trans hPa)
      _ st2 h2 rfl
  · intro S hS hw1 hw2
    constructor
    · rw [ifit_spec_some_eq st x y S hS]
      unfold ifitSome
      rw [hS]
      simp [hy, hw1, hw2]
    · intro s _ i hx hs
      exact specGeneralize_getD x s i hx hs

/-- Witness for C2: seeding from a state with one deferred negative
example and the generalize-and-prune step on a present boundary. -/
theorem ifit_positive_cases_w :
    ((⟨none, [], [([3, 2], 0)]⟩ : VersionSpaceILP).ifit [1, 2] 1 =
      [([3, 2], (0 : Int))].foldlM (fun s p => ifitSome s p.1 p.2)
        ⟨some [[1, 2]], [List.replicate (List.length [1, 2]) 0], []⟩) ∧
    ((⟨none, [], [([3, 2], 0)]⟩ : VersionSpaceILP).ifit [1, 2] 1 =
        .ok ⟨some [[1, 2]], [[1, 0]], []⟩ →
      (⟨some [[1, 2]], [[1, 0]], []⟩ : VersionSpaceILP).spec_concepts = some [[1, 2]]) ∧
    ((⟨some [[1, 2]], [[0, 0], [9, 9]], []⟩ : VersionSpaceILP).ifit [1, 5] 1 =
      .ok ⟨some [[1, 0]], [[0, 0]], []⟩) := by
  have h1 := (ifit_positive_cases ⟨none, [], [([3, 2], 0)]⟩ [1, 2] 1 (by decide)).1 rfl
  have h2 := (ifit_positive_cases ⟨some [[1, 2]], [[0, 0], [9, 9]], []⟩ [1, 5] 1
      (by decide)).2 [[1, 2]] rfl (by decide) (by decide)
  exact ⟨h1.1, fun h => h1.2 (by decide) _ h, h2.1⟩

/-- C5: over any successful sequence of positive fits starting from a
singleton specific boundary, a wildcard position stays wildcard and
every position either keeps its value or becomes wildcard — never the
reverse and never a change between two concrete values. -/
theorem spec_monotonic_generalization (st : VersionSpaceILP) (s : List Nat)
    (xs : List (List Nat)) (st2 : VersionSpaceILP)
    (hS : st.spec_concepts = some [s])
    (h : xs.foldlM (fun a x => a.ifit x 1) st = .ok st2) :
    ∃ s2, st2.spec_concepts = some [s2] ∧ s2.length = s.length ∧
      ∀ i, i < s.length →
        (s.getD i 0 = 0 → s2.getD i 0 = 0) ∧
        (s2.getD i 0 = s.getD i 0 ∨ s2.getD i 0 = 0) := by
  induction xs generalizing st s with
  | nil =>
    rw [List.foldlM_nil] at h
    cases h
    exact ⟨s, hS, rfl, fun i hi => ⟨fun h0 => h0, Or.inl rfl⟩⟩
  | cons x xs ih =>
    rw [List.foldlM_cons] at h
    cases hstep : st.ifit x 1 with
    | error e =>
      rw [hstep] at h
      exact Except.noConfusion
        (show (Except.error e : Except PyErr VersionSpaceILP) = Except.ok st2 from h)
    | ok st1 =>
      rw [hstep] at h
      have hstep2 : ifitSome st x 1 = .ok st1 := by
        rw [← ifit_spec_some_eq st x 1 [s] hS]
        exact hstep
      obtain ⟨hspec1, hw1⟩ :=
        ifitSome_pos_spec st x 1 [s] (by decide) hS st1 hstep2
      have hlen1 : s.length = x.length := by
        simpa [rowsWidthOk] using hw1
      simp only [List.map_cons, List.map_nil] at hspec1
      obtain ⟨s2, hs2, hlen2, hrel2⟩ := ih st1 (specGeneralize x s) hspec1 h
      have hlenG : (specGeneralize x s).length = s.length :=
        specGeneralize_length x s hlen1
      refine ⟨s2, hs2, by omega, fun i hi => ?_⟩
      have hGi := specGeneralize_getD x s i (by omega) hi
      have h2 := hrel2 i (by omega)
      constructor
      · intro h0
        refine h2.1 ?_
        rw [hGi, h0]
        simp
      · rcases h2.2 with h2a | h2b
        · rw [h2a, hGi]
          by_cases hxs : x.getD i 0 = s.getD i 0
          · rw [if_pos hxs]
            exact Or.inl rfl
          · rw [if_neg hxs]
            exact Or.inr rfl
        · exact Or.inr h2b

/-- Witness for C5 on a concrete three-fit positive run. -/
theorem spec_monotonic_generalization_w :
    ∃ s2, (⟨some [[1, 0, 3]], [[0, 0, 0]], []⟩ : VersionSpaceILP).spec_concepts =
        some [s2] ∧
      s2.length = List.length [1, 2, 3] ∧
      ∀ i, i < List.length [1, 2, 3] →
        (List.getD [1, 2, 3] i 0 = 0 → s2.getD i 0 = 0) ∧
        (s2.getD i 0 = List.getD [1, 2, 3] i 0 ∨ s2.getD i 0 = 0) :=
  spec_monotonic_generalization ⟨some [[1, 2, 3]], [[0, 0, 0]], []⟩ [1, 2, 3]
    [[1, 5, 3], [1, 7, 3]] ⟨some [[1, 0, 3]], [[0, 0, 0]], []⟩ rfl (by decide)

/-- C10: the specific boundary of a `VersionSpaceILP` holds exactly one
vector from the first positive example onward — every reachable state
has `spec_concepts` either unset or a singleton, negative fits never
touch it, and a positive fit on a singleton rewrites that one vector
elementwise. -/
theorem spec_singleton_invariant :
    (∀ (fits : List (List Nat × Int)) (st2 : VersionSpaceILP),
      fits.foldlM (fun a p => a.ifit p.1 p.2) ilpInit = .ok st2 →
      st2.spec_concepts = none ∨ ∃ s, st2.spec_concepts = some [s]) ∧
    (∀ (st : VersionSpaceILP) (x : List Nat) (y : Int) (st2 : VersionSpaceILP),
      ¬ 0 < y → st.ifit x y = .ok st2 →
      st2.spec_concepts = st.spec_concepts) ∧
    (∀ (st : VersionSpaceILP) (s x : List Nat) (y : Int) (st2 : VersionSpaceILP),
      0 < y → st.spec_concepts = some [s] → st.ifit x y = .ok st2 →
      st2.spec_concepts = some [specGeneralize x s]) := by
  have hB : ∀ (st : VersionSpaceILP) (x : List Nat) (y : Int)
      (st2 : VersionSpaceILP), ¬ 0 < y → st.ifit x y = .ok st2 →
      st2.spec_concepts = st.spec_concepts := by
    intro st x y st2 hy h
    cases hS : st.spec_concepts with
    | some S =>
      rw [ifit_spec_some_eq st x y S hS] at h
      exact (ifitSome_nonpos_spec st x y hy st2 h).trans hS
    | none =>
      unfold VersionSpaceILP.ifit at h
      rw [hS] at h
      simp only [hy, if_false, reduceIte] at h
      cases h
      simp [hS]
  refine ⟨?_, hB, ?_⟩
  · intro fits st2 h
    refine foldlM_except_inv (fun a p => a.ifit p.1 p.2)
      (fun a => a.spec_concepts = none ∨ ∃ s, a.spec_concepts = some [s]) fits
      ?_ ilpInit st2 h (Or.inl rfl)
    intro p _ a a2 hPa hstep
    have hstep1 : a.ifit p.1 p.2 = .ok a2 := hstep
    by_cases hy : 0 < p.2
    · cases hPa with
      | inr hsing =>
        have hstep2 : ifitSome a p.1 p.2 = .ok a2 := by
          obtain ⟨s, hs⟩ := hsing
          rw [← ifit_spec_some_eq a p.1 p.2 [s] hs]
          exact hstep1
        exact Or.inr (ifitSome_singleton a p.1 p.2 a2 hstep2 hsing)
      | inl hnone =>
        unfold VersionSpaceILP.ifit at hstep1
        rw [hnone] at hstep1
        simp only [hy, if_true, reduceIte] at hstep1
        refine Or.inr (foldlM_except_inv (fun s q => ifitSome s q.1 q.2)
          (fun b => ∃ s, b.spec_concepts = some [s]) a.unused_concepts
          (fun q _ b b2 hPb hst => ifitSome_singleton b q.1 q.2 b2 hst hPb)
          _ a2 hstep1 ⟨p.1, rfl⟩)
    · exact (hB a p.1 p.2 a2 hy hstep1) ▸ hPa
  · intro st s x y st2 hy hS h
    have hstep2 : ifitSome st x y = .ok st2 := by
      rw [← ifit_spec_some_eq st x y [s] hS]
      exact h
    have := (ifitSome_pos_spec st x y [s] hy hS st2 hstep2).1
    simpa using this

/-- Witness for C10: the invariant applied to a concrete run, a concrete
negative fit and a concrete positive fit. -/
theorem spec_singleton_invariant_w :
    ((⟨some [[1, 2]], [[0, 0]], []⟩ : VersionSpaceILP).spec_concepts = none ∨
      ∃ s, (⟨some [[1, 2]], [[0, 0]], []⟩ : VersionSpaceILP).spec_concepts = some [s]) ∧
    ((⟨some [[1, 2]], [[0, 2]], []⟩ : VersionSpaceILP).spec_concepts =
      (⟨some [[1, 2]], [[0, 0]], []⟩ : VersionSpaceILP).spec_concepts) ∧
    ((⟨some [[1, 0]], [[0, 0]], []⟩ : VersionSpaceILP).spec_concepts =
      some [specGeneralize [1, 5] [1, 2]]) := by
  refine ⟨spec_singleton_invariant.1 [([1, 2], 1)] _ (by decide), ?_, ?_⟩
  · exact spec_singleton_invariant.2.1 ⟨some [[1, 2]], [[0, 0]], []⟩ [1, 3] 0 _
      (by decide) (by decide)
  · exact spec_singleton_invariant.2.2 ⟨some [[1, 2]], [[0, 0]], []⟩ [1, 2] [1, 5] 1 _
      (by decide) rfl (by decide)

/-- C3 counterexample: the claim's reading of the negative update — keep
the non-matching general hypotheses and add the one-position
specializations of the specific boundary that are consistent with every
keeper (`claimC3Gens`) — disagrees with the code on concrete reachable
and unreachable boundary states: the code merges each candidate into
each matching general hypothesis and keeps the result exactly when it is
inconsistent with every keeper. -/
theorem negative_update_claim_false :
    (([([1, 2], (1 : Int)), ([3, 2], 0)].foldlM (fun s p => s.ifit p.1 p.2)
        ilpInit) = .ok ⟨some [[1, 2]], [[1, 0]], []⟩) ∧
    ((VersionSpaceILP.ifit ⟨some [[1, 2]], [[1, 0]], []⟩ [1, 3] 0).map
        VersionSpaceILP.gen_concepts = .ok [[1, 2]]) ∧
    claimC3Gens [[1, 2]] [[1, 0]] [1, 3] = [[0, 2]] ∧
    ¬ ([1, 2] ∈ claimC3Gens [[1, 2]] [[1, 0]] [1, 3]) ∧
    ¬ ([0, 2] ∈ ([[1, 2]] : List (List Nat))) ∧
    ((VersionSpaceILP.ifit ⟨some [[1, 2]], [[1, 0], [3, 0]], []⟩ [1, 3] 0).map
        VersionSpaceILP.gen_concepts = .ok [[3, 0], [1, 2]]) ∧
    claimC3Gens [[1, 2]] [[1, 0], [3, 0]] [1, 3] = [[3, 0]] := by
  decide

/-- C3 amended: for a negative-labeled fit after the first positive
example, the general boundary afterwards consists of (a) the general
hypotheses that did not match the negative vector, kept unchanged, and
(b) the merges of each matching general hypothesis with each candidate
specialization — one candidate per position where a specific-boundary
row is non-wildcard and differs from the negative vector, carrying the
specific value at that position and wildcard elsewhere; the merge keeps
the matching hypothesis' value at its non-wildcard positions — where a
merge is kept exactly when it is inconsistent with every retained
non-matching hypothesis. -/
theorem negative_update_gens_mem (st : VersionSpaceILP) (S : List (List Nat))
    (x : List Nat) (y : Int) (hS : st.spec_concepts = some S) (hy : ¬ 0 < y)
    (hw1 : rowsWidthOk S x.length = true)
    (hw2 : rowsWidthOk st.gen_concepts x.length = true)
    (st2 : VersionSpaceILP) (h : st.ifit x y = .ok st2) (hrow : List Nat) :
    hrow ∈ st2.gen_concepts ↔
      ((hrow ∈ st.gen_concepts ∧ consistentB hrow x = false) ∨
       (∃ g ∈ st.gen_concepts, consistentB g x = true ∧
        ∃ c ∈ specializationCandidates S x, hrow = mergeWhere g c ∧
        ∀ k ∈ st.gen_concepts, consistentB k x = false →
          consistentB k hrow = false)) := by
  rw [ifit_spec_some_eq st x y S hS] at h
  unfold ifitSome at h
  rw [hS] at h
  simp only [hy, if_false, reduceIte] at h
  unfold ifitNegGens at h
  rw [hw1, hw2] at h
  simp only [Bool.and_self, Bool.not_true, Bool.false_eq_true, if_false,
    reduceIte] at h
  cases h
  simp only [List.mem_append, List.mem_filter, List.mem_flatMap, List.mem_map,
    List.all_eq_true, Bool.not_eq_true']
  constructor
  · rintro (⟨hmem, hcons⟩ | ⟨⟨g, ⟨hg, hgc⟩, c, hc, hmerge⟩, hkeep⟩)
    · exact Or.inl ⟨hmem, hcons⟩
    · refine Or.inr ⟨g, hg, hgc, c, hc, hmerge.symm, ?_⟩
      intro k hk hkc
      exact hkeep k ⟨hk, hkc⟩
  · rintro (⟨hmem, hcons⟩ | ⟨g, hg, hgc, c, hc, hmerge, hkeep⟩)
    · exact Or.inl ⟨hmem, hcons⟩
    · refine Or.inr ⟨⟨g, ⟨hg, hgc⟩, c, hc, hmerge.symm⟩, ?_⟩
      intro k hk
      exact hkeep k hk.1 hk.2

/-- Witness for the amended C3 at the concrete keeper scenario. -/
theorem negative_update_gens_mem_w :
    [1, 2] ∈ (⟨some [[1, 2]], [[3, 0], [1, 2]], []⟩ : VersionSpaceILP).gen_concepts ↔
      (([1, 2] ∈ ([[1, 0], [3, 0]] : List (List Nat)) ∧
          consistentB [1, 2] [1, 3] = false) ∨
       (∃ g ∈ ([[1, 0], [3, 0]] : List (List Nat)), consistentB g [1, 3] = true ∧
        ∃ c ∈ specializationCandidates [[1, 2]] [1, 3], [1, 2] = mergeWhere g c ∧
        ∀ k ∈ ([[1, 0], [3, 0]] : List (List Nat)), consistentB k [1, 3] = false →
          consistentB k [1, 2] = false)) :=
  negative_update_gens_mem ⟨some [[1, 2]], [[1, 0], [3, 0]], []⟩ [[1, 2]] [1, 3] 0
    rfl (by decide) (by decide) (by decide) ⟨some [[1, 2]], [[3, 0], [1, 2]], []⟩
    (by decide) [1, 2]

/-! ### Helper lemmas on the encoder -/

theorem encodeVal_fields (e : Enumerizer) (v : PyVal) :
    (e.encodeVal v).2.remove_attrs = e.remove_attrs ∧
      (e.encodeVal v).2.type_lengths = e.type_lengths := by
  rcases e with ⟨sn, fa, ra, am, tl⟩
  cases am <;> simp [Enumerizer.encodeVal, Enumerizer.ensureMap] <;>
    split <;> simp

theorem encodeVals_fields (fm : Option (List (PyVal × Nat)))
    (l : List (FlatKey × PyVal)) :
    ∀ e : Enumerizer,
      (encodeVals e fm l).1.length =
        (l.filter (fun kv => !removedKey e.remove_attrs kv.1)).length ∧
      (encodeVals e fm l).2.remove_attrs = e.remove_attrs ∧
      (encodeVals e fm l).2.type_lengths = e.type_lengths := by
  induction l with
  | nil => intro e; simp [encodeVals]
  | cons kv rest ih =>
    intro e
    by_cases hr : removedKey e.remove_attrs kv.1
    · have h := ih e
      simp [encodeVals, hr, List.filter_cons, h.1, h.2.1, h.2.2]
    · cases fm with
      | none =>
        obtain ⟨hra, htl⟩ := encodeVal_fields e kv.2
        have h := ih (e.encodeVal kv.2).2
        rw [hra] at h
        simp [encodeVals, hr, List.filter_cons, h.1, h.2.1, h.2.2, htl]
      | some m =>
        cases hlk : List.lookup kv.2 m with
        | some c =>
          have h := ih e
          simp [encodeVals, hr, hlk, List.filter_cons, h.1, h.2.1, h.2.2]
        | none =>
          obtain ⟨hra, htl⟩ := encodeVal_fields e kv.2
          have h := ih (e.encodeVal kv.2).2
          rw [hra] at h
          simp [encodeVals, hr, hlk, List.filter_cons, h.1, h.2.1, h.2.2, htl]

/-- A later fit whose tuple arity differs from the recorded slot count
fails with the SchemaMismatch condition (the `assert` at line 823). -/
theorem ifit_arity_mismatch (st : VersionSpace) (t : List String)
    (state : PyState) (y : Int) (es : List Elem) (hinit : st.initialized = true)
    (hlen : t.length ≠ st.num_elems) (hlk : lookupElems state t = .ok es)
    (hty : es.all (fun el => (List.lookup "type" el).isSome) = true) :
    st.ifit t state y = .error .schemaMismatch := by
  unfold VersionSpace.ifit
  rw [hlk]
  simp [hty, hinit, hlen]

/-- Re-encoding an instance whose type was seen with a different
attribute count fails with the SchemaMismatch condition (the `assert`
at lines 1317-1319). -/
theorem transform_length_mismatch (e : Enumerizer)
    (fm : Option (List (PyVal × Nat))) (inst : Inst) (tv : PyVal) (L : Nat)
    (hty : List.lookup (IKey.str "type") inst = some (AVal.scalar tv))
    (hL : List.lookup tv e.type_lengths = some L)
    (hne : ((iterInst inst).filter
        (fun kv => !removedKey e.remove_attrs kv.1)).length ≠ L) :
    e.transformInst fm inst = .error .schemaMismatch := by
  unfold Enumerizer.transformInst
  rw [hty]
  obtain ⟨hlen, -, htl⟩ := encodeVals_fields fm (iterInst inst) e
  rcases hE : encodeVals e fm (iterInst inst) with ⟨codes, e1⟩
  rw [hE] at hlen htl
  simp only at hlen htl
  simp only [htl, hL]
  rw [if_neg (by rw [hlen]; exact hne)]

/-- C7: a fit call whose tuple has a different number of slots than the
arity fixed by the first training example fails with the SchemaMismatch
condition rather than silently coercing, and so does re-encoding an
element whose object type was seen before but which now yields a vector
of a different length. -/
theorem schema_mismatch_fatal :
    (∀ (st : VersionSpace) (t : List String) (state : PyState) (y : Int)
        (es : List Elem), st.initialized = true → t.length ≠ st.num_elems →
        lookupElems state t = .ok es →
        es.all (fun el => (List.lookup "type" el).isSome) = true →
        st.ifit t state y = .error .schemaMismatch) ∧
    (∀ (e : Enumerizer) (fm : Option (List (PyVal × Nat))) (inst : Inst)
        (tv : PyVal) (L : Nat),
        List.lookup (IKey.str "type") inst = some (AVal.scalar tv) →
        List.lookup tv e.type_lengths = some L →
        ((iterInst inst).filter
          (fun kv => !removedKey e.remove_attrs kv.1)).length ≠ L →
        e.transformInst fm inst = .error .schemaMismatch) :=
  ⟨fun st t state y es h1 h2 h3 h4 => ifit_arity_mismatch st t state y es h1 h2 h3 h4,
   fun e fm inst tv L h1 h2 h3 => transform_length_mismatch e fm inst tv L h1 h2 h3⟩

/-- Witness for C7: a 2-slot concept fitted with a 1-element tuple, and
an element of type `A` encoded to 2 attributes where 3 were recorded. -/
theorem schema_mismatch_fatal_w :
    vsTwoSlots.ifit ["a1"] stateS9 1 = .error .schemaMismatch ∧
      enumTypeA3.transformInst none
        (elemToInst [("type", AVal.scalar (PyVal.str "A")),
          ("color", AVal.scalar (PyVal.str "red"))]) = .error .schemaMismatch :=
  ⟨schema_mismatch_fatal.1 vsTwoSlots ["a1"] stateS9 1
      [[("type", AVal.scalar (PyVal.str "ta"))]] rfl (by decide) (by decide)
      (by decide),
   schema_mismatch_fatal.2 enumTypeA3 none
      (elemToInst [("type", AVal.scalar (PyVal.str "A")),
        ("color", AVal.scalar (PyVal.str "red"))]) (PyVal.str "A") 3
      (by decide) (by decide) (by decide)⟩

end ALCore
